import Mathlib

/-!
# Verification of the execution-and-risk core of the Polymarket sniper bot

Shallow embedding of the risk ledger (`src/core/risk.py`), the circuit
breaker (`src/core/circuit_breaker.py`), the order sizer
(`src/core/sizing.py`), the persistence snapshot
(`src/core/risk.py` serialization plus `src/core/persistence.py`), and the
trade-handling / stop-loss paths of the engine (`src/core/engine.py`).

Python floats are modelled as rationals (`ℚ`); wall-clock time
(`time.time()`) is passed explicitly as a `now : ℚ` argument.  Log calls
are dropped; alert dispatch is recorded as a boolean in the result of the
engine functions.  Human-readable veto/halt strings whose only role is
diagnostics are modelled by an inductive `VetoReason` carrying the same
data; the halt reason stored in the ledger stays a `String` because the
restore path (`load_state_dict`) branches on its content.
-/

namespace PolySniper

/-- Association-list update with Python-dict semantics: replace the value
in place if the key is present, otherwise append.  Models
`d[key] = value`. -/
def setAssoc {α : Type} : List (String × α) → String → α → List (String × α)
  | [], k, v => [(k, v)]
  | (k', v') :: rest, k, v =>
    if k' = k then (k, v) :: rest else (k', v') :: setAssoc rest k v

/-- Association-list lookup.  Models `d.get(key)`. -/
def getAssoc {α : Type} (m : List (String × α)) (k : String) : Option α :=
  (m.find? (fun kv => kv.1 == k)).map (·.2)

/-! ## Risk ledger data model (`src/core/risk.py`) -/

/-- `RiskConfig` from `src/core/risk.py`. -/
structure RiskConfig where
  maxOpenPositions : Nat := 10
  maxPositionsPerGame : Nat := 4
  maxSessionLossUsdc : ℚ := 200
  maxTotalExposureUsdc : ℚ := 500
  matchCooldownSeconds : ℚ := 30
  dedupWindowSeconds : ℚ := 300
  feeRate : ℚ := 0
  stopLossPct : ℚ := 0
deriving DecidableEq, Repr

/-- `PositionRecord` from `src/core/risk.py`. -/
structure PositionRecord where
  tokenId : String
  game : String
  team : String
  matchId : String
  amountUsdc : ℚ
  buyPrice : ℚ
  conditionId : String := ""
  timestamp : ℚ := 0
deriving DecidableEq, Repr

/-- The reason carried by a `RiskVeto`.  The Python code carries formatted
strings; each constructor corresponds to one `return` site of the check
methods and carries the data interpolated there. -/
inductive VetoReason where
  | haltedV (reason : String)
  | dupToken (tokenId : String)
  | dupMarket (matchId : String)
  | dupKey (key : String)
  | cooldown (matchId : String)
  | maxPositions
  | maxPerGame (game : String)
  | exposure
  | sessionLoss
deriving DecidableEq, Repr

/-- `RiskDecision = RiskVeto | RiskClear` from `src/core/risk.py`. -/
inductive RiskDecision where
  | clear
  | veto (reason : VetoReason)
deriving DecidableEq, Repr

/-- Truthiness of a `RiskDecision`: `RiskVeto.__bool__` is `False`,
`RiskClear.__bool__` is `True`; `isVeto` is the negation. -/
def RiskDecision.isVeto : RiskDecision → Bool
  | .clear => false
  | .veto _ => true

/-- The mutable state of a `RiskManager` instance from `src/core/risk.py`
(`_cfg`, `_positions`, `_trade_keys`, `_match_cooldowns`, `_session_pnl`,
`_halted`, `_halt_reason`). -/
structure RiskManager where
  cfg : RiskConfig := {}
  positions : List PositionRecord := []
  tradeKeys : List (String × ℚ) := []
  matchCooldowns : List (String × ℚ) := []
  sessionPnl : ℚ := 0
  halted : Bool := false
  haltReason : String := ""
deriving DecidableEq, Repr

namespace RiskManager

/-- `RiskManager.open_positions`. -/
def open_positions (l : RiskManager) : Nat := l.positions.length

/-- `RiskManager.total_exposure`. -/
def total_exposure (l : RiskManager) : ℚ :=
  (l.positions.map (·.amountUsdc)).sum

/-- `RiskManager._dedup_key`: `f"{token_id}|{match_id}|{team}".lower()`. -/
def dedup_key (tokenId matchId team : String) : String :=
  (tokenId ++ "|" ++ matchId ++ "|" ++ team).toLower

/-- `RiskManager._halt`. -/
def haltWith (l : RiskManager) (reason : String) : RiskManager :=
  { l with halted := true, haltReason := reason }

/-- `RiskManager.resume`. -/
def resume (l : RiskManager) : RiskManager :=
  if l.halted then { l with halted := false, haltReason := "" } else l

/-- The halt reason produced by `record_pnl`
(`"Session loss limit hit: $%.2f" % self._session_pnl`); the numeric
formatting of the PnL is abstracted to `toString`. -/
def sessionLossReason (pnl : ℚ) : String :=
  "Session loss limit hit: $" ++ toString pnl

/-- `RiskManager.record_pnl`: adds the delta to the session PnL and halts
when the result is `≤ -max_session_loss_usdc`. -/
def record_pnl (l : RiskManager) (realizedPnl : ℚ) : RiskManager :=
  if l.sessionPnl + realizedPnl ≤ -l.cfg.maxSessionLossUsdc then
    haltWith { l with sessionPnl := l.sessionPnl + realizedPnl }
      (sessionLossReason (l.sessionPnl + realizedPnl))
  else { l with sessionPnl := l.sessionPnl + realizedPnl }

/-- `RiskManager.record_trade`: appends the position and stamps the dedup
key and the match cooldown with the current time. -/
def record_trade (l : RiskManager) (now : ℚ)
    (tokenId game team matchId : String) (amountUsdc buyPrice : ℚ)
    (conditionId : String) : RiskManager :=
  { l with
    positions := l.positions ++
      [{ tokenId := tokenId, game := game, team := team, matchId := matchId,
         amountUsdc := amountUsdc, buyPrice := buyPrice,
         conditionId := conditionId, timestamp := now }]
    tradeKeys := setAssoc l.tradeKeys (dedup_key tokenId matchId team) now
    matchCooldowns := setAssoc l.matchCooldowns matchId now }

/-- `RiskManager.close_position`: drops every position with the token id. -/
def close_position (l : RiskManager) (tokenId : String) : RiskManager :=
  { l with positions := l.positions.filter (fun p => p.tokenId ≠ tokenId) }

/-- `RiskManager.close_position_with_pnl`.  Returns the updated ledger and
the net realized PnL (`none` when no position matches). -/
def close_position_with_pnl (l : RiskManager) (tokenId : String)
    (exitPrice : ℚ) (applyFees : Bool) : RiskManager × Option ℚ :=
  match l.positions.find? (fun p => p.tokenId == tokenId) with
  | none => (l, none)
  | some pos =>
    let shares := pos.amountUsdc / pos.buyPrice
    let grossPnl := shares * exitPrice - pos.amountUsdc
    let fees : ℚ :=
      if applyFees = true ∧ 0 < grossPnl ∧ 0 < l.cfg.feeRate then
        grossPnl * l.cfg.feeRate
      else 0
    let pnl := grossPnl - fees
    (record_pnl (close_position l tokenId) pnl, some pnl)

/-- `RiskManager._check_dedup`: existing position on the token, existing
position on the market, or the same `(token, market, team)` key traded
within the dedup window. -/
def check_dedup (l : RiskManager) (now : ℚ)
    (tokenId matchId team : String) : Option VetoReason :=
  if l.positions.any (fun p => p.tokenId == tokenId) then
    some (.dupToken tokenId)
  else if l.positions.any (fun p => p.matchId == matchId) then
    some (.dupMarket matchId)
  else
    match getAssoc l.tradeKeys (dedup_key tokenId matchId team) with
    | none => none
    | some lastTrade =>
      if now - lastTrade < l.cfg.dedupWindowSeconds then
        some (.dupKey (dedup_key tokenId matchId team))
      else none

/-- `RiskManager._check_cooldown`: an empty match id is exempt; otherwise
veto while the elapsed time since the last trade on the match is below the
cooldown window. -/
def check_cooldown (l : RiskManager) (now : ℚ) (matchId : String) :
    Option VetoReason :=
  if matchId = "" then none
  else
    match getAssoc l.matchCooldowns matchId with
    | none => none
    | some lastTrade =>
      if now - lastTrade < l.cfg.matchCooldownSeconds then
        some (.cooldown matchId)
      else none

/-- `RiskManager._check_position_limits`: total open-position cap first,
then the per-game cap. -/
def check_position_limits (l : RiskManager) (game : String) :
    Option VetoReason :=
  if l.open_positions ≥ l.cfg.maxOpenPositions then some .maxPositions
  else if (l.positions.filter (fun p => p.game == game)).length ≥
      l.cfg.maxPositionsPerGame then
    some (.maxPerGame game)
  else none

/-- `RiskManager._check_exposure`: veto when the projected exposure
exceeds the cap. -/
def check_exposure (l : RiskManager) (amountUsdc : ℚ) : Option VetoReason :=
  if l.total_exposure + amountUsdc > l.cfg.maxTotalExposureUsdc then
    some .exposure
  else none

/-- `RiskManager._check_session_loss`. -/
def check_session_loss (l : RiskManager) : Option VetoReason :=
  if l.sessionPnl ≤ -l.cfg.maxSessionLossUsdc then some .sessionLoss
  else none

/-- `RiskManager.pre_trade_check`.  The Python method reads but never
assigns `self`; the embedding threads the ledger through so the frame
property is statable, returning it in every branch exactly as the method
leaves `self` untouched on every path. -/
def pre_trade_check (l : RiskManager) (now : ℚ)
    (tokenId game team matchId : String) (amountUsdc askPrice : ℚ) :
    RiskManager × RiskDecision :=
  if l.halted then (l, .veto (.haltedV l.haltReason))
  else match check_dedup l now tokenId matchId team with
  | some r => (l, .veto r)
  | none => match check_cooldown l now matchId with
  | some r => (l, .veto r)
  | none => match check_position_limits l game with
  | some r => (l, .veto r)
  | none => match check_exposure l amountUsdc with
  | some r => (l, .veto r)
  | none => match check_session_loss l with
  | some r => (l, .veto r)
  | none => (l, .clear)

end RiskManager

/-! ## Persistence snapshot (`RiskManager.to_state_dict` /
`RiskManager.load_state_dict` in `src/core/risk.py`; `StateStore` in
`src/core/persistence.py` serializes this dict to JSON verbatim with an
atomic write, so the dict level is the round-trip boundary). -/

/-- The persisted snapshot shape (`to_state_dict`). -/
structure StateDict where
  version : Nat
  timestamp : ℚ
  sessionPnl : ℚ
  halted : Bool
  haltReason : String
  positions : List PositionRecord
  tradeKeys : List (String × ℚ)
  matchCooldowns : List (String × ℚ)
deriving DecidableEq, Repr

namespace RiskManager

/-- `RiskManager.to_state_dict`. -/
def to_state_dict (l : RiskManager) (now : ℚ) : StateDict :=
  { version := 1, timestamp := now, sessionPnl := l.sessionPnl,
    halted := l.halted, haltReason := l.haltReason,
    positions := l.positions, tradeKeys := l.tradeKeys,
    matchCooldowns := l.matchCooldowns }

/-- Substring containment on character lists, modelling Python's
`needle in hay`. -/
def containsChars (needle : List Char) : List Char → Bool
  | [] => needle.isEmpty
  | c :: rest => needle.isPrefixOf (c :: rest) || containsChars needle rest

/-- ASCII lower-casing of one character, modelling `str.lower()` on the
ASCII reasons this code produces. -/
def lowerChar (c : Char) : Char :=
  if c.isUpper then Char.ofNat (c.toNat + 32) else c

/-- `"circuit breaker" in saved_reason.lower()`. -/
def isCircuitBreakerReason (reason : String) : Bool :=
  containsChars "circuit breaker".toList (reason.toList.map lowerChar)

/-- `RiskManager.load_state_dict`: restores every field from the snapshot,
except that a persisted halt whose reason mentions the circuit breaker is
dropped (halted reset to false, reason cleared). -/
def load_state_dict (l : RiskManager) (s : StateDict) : RiskManager :=
  let keepHalt := !(s.halted && isCircuitBreakerReason s.haltReason)
  { l with
    sessionPnl := s.sessionPnl
    halted := if keepHalt then s.halted else false
    haltReason := if keepHalt then s.haltReason else ""
    positions := s.positions
    tradeKeys := s.tradeKeys
    matchCooldowns := s.matchCooldowns }

end RiskManager

/-! ## Circuit breaker (`src/core/circuit_breaker.py`) -/

/-- `AdapterState` enum. -/
inductive AdapterState where
  | closed
  | opened
  | halfOpen
deriving DecidableEq, Repr

/-- `CircuitBreakerConfig`. -/
structure CircuitBreakerConfig where
  failureThreshold : Nat := 3
  recoveryTimeoutSeconds : ℚ := 60
  minHealthyAdapters : Nat := 1
  healthCheckInterval : ℚ := 10
  staleDataTimeout : ℚ := 120
deriving DecidableEq, Repr

/-- `AdapterHealth`. -/
structure AdapterHealth where
  name : String
  state : AdapterState := .closed
  consecutiveFailures : Nat := 0
  lastSuccess : ℚ := 0
  lastFailure : ℚ := 0
  lastEventTime : ℚ := 0
  totalEvents : Nat := 0
  totalFailures : Nat := 0
deriving DecidableEq, Repr

/-- The state of a `CircuitBreaker` instance (`_cfg`, `_adapters`,
`_global_halt`; the `on_halt`/`on_resume` callbacks are external effects
and not part of the state). -/
structure CircuitBreaker where
  cfg : CircuitBreakerConfig := {}
  adapters : List (String × AdapterHealth) := []
  globalHalt : Bool := false
deriving DecidableEq, Repr

namespace CircuitBreaker

/-- `CircuitBreaker.healthy_count`. -/
def healthy_count (cb : CircuitBreaker) : Nat :=
  (cb.adapters.filter (fun a => a.2.state = AdapterState.closed)).length

/-- The state of one adapter, as reported by `adapter_states`. -/
def adapterState (cb : CircuitBreaker) (name : String) :
    Option AdapterState :=
  (getAssoc cb.adapters name).map (·.state)

/-- `CircuitBreaker.register`: installs a fresh `AdapterHealth` record. -/
def register (cb : CircuitBreaker) (now : ℚ) (adapterName : String) :
    CircuitBreaker :=
  { cb with adapters := (setAssoc cb.adapters adapterName
      { name := adapterName, lastSuccess := now, lastEventTime := now }) }

/-- `CircuitBreaker._evaluate_global_state`: halt when fewer than
`min_healthy_adapters` are closed, resume when enough are again. -/
def evaluate_global_state (cb : CircuitBreaker) : CircuitBreaker :=
  let healthy := cb.healthy_count
  if !cb.globalHalt ∧ healthy < cb.cfg.minHealthyAdapters then
    { cb with globalHalt := true }
  else if cb.globalHalt ∧ healthy ≥ cb.cfg.minHealthyAdapters then
    { cb with globalHalt := false }
  else cb

/-- `CircuitBreaker.record_success`.  Note: the two state tests in the
Python body are sequential `if` statements, not `elif`; the second test
observes the state written by the first, so an `OPEN` adapter passes
through `HALF_OPEN` and ends `CLOSED` within this single call. -/
def record_success (cb : CircuitBreaker) (now : ℚ) (adapterName : String) :
    CircuitBreaker :=
  match getAssoc cb.adapters adapterName with
  | none => cb
  | some health =>
    let health := { health with lastSuccess := now, lastEventTime := now,
                                totalEvents := health.totalEvents + 1 }
    let health := if health.state = AdapterState.opened then
        { health with state := AdapterState.halfOpen }
      else health
    if health.state = AdapterState.halfOpen then
      let health := { health with consecutiveFailures := 0,
                                  state := AdapterState.closed }
      evaluate_global_state
        { cb with adapters := setAssoc cb.adapters adapterName health }
    else
      { cb with adapters := setAssoc cb.adapters adapterName health }

/-- `CircuitBreaker.record_failure`. -/
def record_failure (cb : CircuitBreaker) (now : ℚ) (adapterName : String) :
    CircuitBreaker :=
  match getAssoc cb.adapters adapterName with
  | none => cb
  | some health =>
    let health := { health with
      consecutiveFailures := health.consecutiveFailures + 1,
      totalFailures := health.totalFailures + 1,
      lastFailure := now }
    if health.state = AdapterState.closed ∧
        health.consecutiveFailures ≥ cb.cfg.failureThreshold then
      let health := { health with state := AdapterState.opened }
      evaluate_global_state
        { cb with adapters := setAssoc cb.adapters adapterName health }
    else
      { cb with adapters := setAssoc cb.adapters adapterName health }

end CircuitBreaker

/-! ## Order sizing (`src/core/sizing.py`) -/

/-- Python's `round()` to the nearest integer, rounding exact halves to
the even neighbour (banker's rounding). -/
def roundHalfEven (x : ℚ) : ℤ :=
  if x - ⌊x⌋ < 1/2 then ⌊x⌋
  else if 1/2 < x - ⌊x⌋ then ⌊x⌋ + 1
  else if ⌊x⌋ % 2 = 0 then ⌊x⌋ else ⌊x⌋ + 1

/-- Python's `round(x, 2)`. -/
def pyRound2 (x : ℚ) : ℚ := (roundHalfEven (x * 100) : ℚ) / 100

/-- `SizingConfig` from `src/core/sizing.py`. -/
structure SizingConfig where
  mode : String := "fixed"
  baseSize : ℚ := 50
  minOrder : ℚ := 10
  maxOrder : ℚ := 200
  kellyFraction : ℚ := 1/4
  kellyWinProb : ℚ := 9/10
  confidenceScoreWeight : ℚ := 3/5
  confidenceEdgeWeight : ℚ := 2/5
deriving DecidableEq, Repr

namespace OrderSizer

/-- `OrderSizer._confidence`. -/
def confidenceSize (cfg : SizingConfig)
    (fuzzyScore askPrice maxBuyPrice : ℚ) : ℚ :=
  let scoreFactor := min (fuzzyScore / 100) 1
  let edgeFactor :=
    if maxBuyPrice > 0 then (maxBuyPrice - askPrice) / maxBuyPrice else 0
  let edgeFactor := max 0 (min edgeFactor 1)
  let wScore := cfg.confidenceScoreWeight
  let wEdge := cfg.confidenceEdgeWeight
  let totalWeight := wScore + wEdge
  let combined :=
    if totalWeight > 0 then
      (wScore * scoreFactor + wEdge * edgeFactor) / totalWeight
    else 1/2
  let multiplier := 1/2 + combined
  cfg.baseSize * multiplier

/-- `OrderSizer._kelly`. -/
def kellySize (cfg : SizingConfig) (askPrice : ℚ) : ℚ :=
  let p := cfg.kellyWinProb
  let q := 1 - p
  if askPrice ≤ 0 ∨ askPrice ≥ 1 then cfg.baseSize
  else
    let b := 1 / askPrice - 1
    if b ≤ 0 then cfg.minOrder
    else
      let kellyF := (p * b - q) / b
      if kellyF ≤ 0 then cfg.minOrder
      else cfg.baseSize * kellyF * cfg.kellyFraction * 4

/-- The `size` local of `OrderSizer.compute`: dispatch on the mode. -/
def rawSize (cfg : SizingConfig)
    (fuzzyScore askPrice maxBuyPrice : ℚ) : ℚ :=
  if cfg.mode = "confidence" then
    confidenceSize cfg fuzzyScore askPrice maxBuyPrice
  else if cfg.mode = "kelly" then kellySize cfg askPrice
  else cfg.baseSize

/-- `OrderSizer.compute`: dispatch on the mode, clamp to
`[min_order, max_order]`, and round the clamped value to two decimals. -/
def compute (cfg : SizingConfig)
    (fuzzyScore askPrice maxBuyPrice : ℚ) : ℚ :=
  pyRound2 (max cfg.minOrder
    (min (rawSize cfg fuzzyScore askPrice maxBuyPrice) cfg.maxOrder))

end OrderSizer

/-! ## Execution engine trade path (`src/core/engine.py`) -/

/-- `Opportunity` fields used by `_handle_opportunity`
(`src/core/scanner.py`). -/
structure Opportunity where
  tokenId : String
  conditionId : String
  outcome : String
  question : String
  askPrice : ℚ := 0
  volume : ℚ := 0
deriving DecidableEq, Repr

/-- The price band from `settings.trading`. -/
structure TradingSettings where
  minBuyPrice : ℚ
  maxBuyPrice : ℚ
deriving DecidableEq, Repr

/-- Where `_handle_opportunity` exited. -/
inductive HandleOutcome where
  | blockedCB
  | blockedRisk
  | clobError (msg : String)
  | emptyBook
  | priceTooLow
  | priceTooHigh
  | noSlots
  | lowBalance
  | vetoed (r : VetoReason)
  | orderFailed (msg : String)
  | traded
deriving DecidableEq, Repr

/-- The observable result of one `_handle_opportunity` call: the risk
ledger it leaves behind, where it exited, whether the scanner reject hook
(`_reject`) ran, whether `send_alert` was awaited, and the bet size it
computed (when it got that far). -/
structure HandleResult where
  risk : RiskManager
  outcome : HandleOutcome
  rejected : Bool
  alerted : Bool
  amount : Option ℚ
deriving DecidableEq, Repr

/-- `SniperEngine._handle_opportunity`.  External effects are passed as
oracles: `cbHalted` (`self._cb.is_halted`), `bestAsk`
(`polymarket.best_ask`, raising modelled as `Except.error`), `balance`
(`polymarket.get_balance_usdc`), and `buyResult`
(`polymarket.market_buy`).  The `sizerCfg` argument stands for the
configured `self._sizer`, which this path never reads. -/
def handle_opportunity (settings : TradingSettings) (sizerCfg : SizingConfig)
    (cbHalted : Bool) (bestAsk : Except String (Option ℚ)) (balance : ℚ)
    (buyResult : Except String Unit) (l : RiskManager) (now : ℚ)
    (opp : Opportunity) : HandleResult :=
  if cbHalted then ⟨l, .blockedCB, true, false, none⟩
  else if l.halted then ⟨l, .blockedRisk, true, false, none⟩
  else match bestAsk with
  | .error e => ⟨l, .clobError e, true, false, none⟩
  | .ok none => ⟨l, .emptyBook, true, false, none⟩
  | .ok (some ask) =>
    if ask < settings.minBuyPrice then ⟨l, .priceTooLow, true, false, none⟩
    else if ask > settings.maxBuyPrice then
      ⟨l, .priceTooHigh, true, false, none⟩
    else
      let availableSlots : ℤ :=
        (l.cfg.maxOpenPositions : ℤ) - (l.open_positions : ℤ)
      if availableSlots ≤ 0 then ⟨l, .noSlots, true, false, none⟩
      else if balance < 5 then ⟨l, .lowBalance, true, false, none⟩
      else
        let amount := max 5 (pyRound2 (balance / (availableSlots : ℚ)))
        match (l.pre_trade_check now opp.tokenId "market" opp.outcome
            opp.conditionId amount ask).2 with
        | .veto r => ⟨l, .vetoed r, false, false, some amount⟩
        | .clear =>
          match buyResult with
          | .error e => ⟨l, .orderFailed e, true, true, some amount⟩
          | .ok _ =>
            ⟨l.record_trade now opp.tokenId "market" opp.outcome
                opp.conditionId amount ask opp.conditionId,
              .traded, false, true, some amount⟩

/-- `SniperEngine._should_stop_loss`. -/
def should_stop_loss (l : RiskManager) (pos : PositionRecord)
    (currentPrice : ℚ) : Bool :=
  let sl := l.cfg.stopLossPct
  if sl ≤ 0 then false
  else currentPrice < pos.buyPrice * (1 - sl)

/-- The observable result of `_execute_stop_loss`: the ledger left behind,
the net PnL returned (`none` when the sell raised), the share count passed
to `polymarket.market_sell`, and whether the failure alert was sent. -/
structure StopLossResult where
  risk : RiskManager
  pnl : Option ℚ
  sellShares : ℚ
  alerted : Bool
deriving DecidableEq, Repr

/-- `SniperEngine._execute_stop_loss`, with the `market_sell` call passed
as an oracle. -/
def execute_stop_loss (l : RiskManager) (pos : PositionRecord)
    (exitPrice : ℚ) (sellResult : Except String Unit) : StopLossResult :=
  let shares := pos.amountUsdc / pos.buyPrice
  match sellResult with
  | .error _ => ⟨l, none, shares, true⟩
  | .ok _ =>
    let (l', pnl) := l.close_position_with_pnl pos.tokenId exitPrice false
    ⟨l', pnl, shares, false⟩

/-! ## Session operations

The mutating entry points of the `RiskManager` surface, reified so that
"every subsequent call until an explicit resume" can be quantified over. -/

/-- One call to a mutating `RiskManager` method. -/
inductive SessionOp where
  | tradeOp (now : ℚ) (tokenId game team matchId : String)
      (amountUsdc buyPrice : ℚ) (conditionId : String)
  | pnlOp (realizedPnl : ℚ)
  | closeOp (tokenId : String)
  | closePnlOp (tokenId : String) (exitPrice : ℚ) (applyFees : Bool)
  | haltOp (reason : String)
  | resumeOp
deriving DecidableEq, Repr

/-- Apply one session operation to the ledger. -/
def applyOp (l : RiskManager) : SessionOp → RiskManager
  | .tradeOp now tokenId game team matchId amountUsdc buyPrice conditionId =>
    l.record_trade now tokenId game team matchId amountUsdc buyPrice
      conditionId
  | .pnlOp realizedPnl => l.record_pnl realizedPnl
  | .closeOp tokenId => l.close_position tokenId
  | .closePnlOp tokenId exitPrice applyFees =>
    (l.close_position_with_pnl tokenId exitPrice applyFees).1
  | .haltOp reason => l.haltWith reason
  | .resumeOp => l.resume

/-- Apply a sequence of session operations, oldest first. -/
def applyOps (l : RiskManager) (ops : List SessionOp) : RiskManager :=
  ops.foldl applyOp l

end PolySniper

namespace PolySniper

open RiskManager

/-! ## Spec-side definitions used by the check-order and
close-position theorems -/

/-- The six checks of `pre_trade_check`, in the order the spec lists them
(the position-limit check split into its total and per-group parts, which
the spec orders "total then per-group"). -/
inductive CheckName where
  | haltCheck
  | dedupCheck
  | cooldownCheck
  | positionTotalCheck
  | positionGroupCheck
  | exposureCheck
  | sessionLossCheck
deriving DecidableEq, Repr

/-- Which check a decision's veto reason belongs to (`none` for Clear). -/
def checkNameOf : RiskDecision → Option CheckName
  | .clear => none
  | .veto (.haltedV _) => some .haltCheck
  | .veto (.dupToken _) => some .dedupCheck
  | .veto (.dupMarket _) => some .dedupCheck
  | .veto (.dupKey _) => some .dedupCheck
  | .veto (.cooldown _) => some .cooldownCheck
  | .veto .maxPositions => some .positionTotalCheck
  | .veto (.maxPerGame _) => some .positionGroupCheck
  | .veto .exposure => some .exposureCheck
  | .veto .sessionLoss => some .sessionLossCheck

/-- Spec wording of the duplicate check: a Position already exists for the
token or for the market, or the identical key traded within the dedup
window. -/
def specDedupFails (l : RiskManager) (now : ℚ)
    (tokenId matchId team : String) : Bool :=
  l.positions.any (fun p => p.tokenId == tokenId) ||
  l.positions.any (fun p => p.matchId == matchId) ||
  (match getAssoc l.tradeKeys (dedup_key tokenId matchId team) with
   | none => false
   | some lastTrade => decide (now - lastTrade < l.cfg.dedupWindowSeconds))

/-- Spec wording of the cooldown check (markets without an id exempt). -/
def specCooldownFails (l : RiskManager) (now : ℚ) (matchId : String) :
    Bool :=
  (matchId != "") &&
  (match getAssoc l.matchCooldowns matchId with
   | none => false
   | some lastTrade =>
     decide (now - lastTrade < l.cfg.matchCooldownSeconds))

/-- Spec wording of the total position-count limit. -/
def specPositionTotalFails (l : RiskManager) : Bool :=
  decide (l.open_positions ≥ l.cfg.maxOpenPositions)

/-- Spec wording of the per-group position-count limit. -/
def specPositionGroupFails (l : RiskManager) (game : String) : Bool :=
  decide ((l.positions.filter (fun p => p.game == game)).length ≥
    l.cfg.maxPositionsPerGame)

/-- Spec wording of the exposure check: veto iff
`currentExposure + amount > maxExposure`. -/
def specExposureFails (l : RiskManager) (amountUsdc : ℚ) : Bool :=
  decide (l.total_exposure + amountUsdc > l.cfg.maxTotalExposureUsdc)

/-- Spec wording of the session-loss check. -/
def specSessionLossFails (l : RiskManager) : Bool :=
  decide (l.sessionPnl ≤ -l.cfg.maxSessionLossUsdc)

/-- Modelled from the spec's words: run the checks in the fixed order
halt, dedup, cooldown, position total, position per-group, exposure,
session loss, and name the first failing one (`none` when all pass). -/
def specFirstFailing (l : RiskManager) (now : ℚ)
    (tokenId game team matchId : String) (amountUsdc : ℚ) :
    Option CheckName :=
  if l.halted then some .haltCheck
  else if specDedupFails l now tokenId matchId team then some .dedupCheck
  else if specCooldownFails l now matchId then some .cooldownCheck
  else if specPositionTotalFails l then some .positionTotalCheck
  else if specPositionGroupFails l game then some .positionGroupCheck
  else if specExposureFails l amountUsdc then some .exposureCheck
  else if specSessionLossFails l then some .sessionLossCheck
  else none

/-- Modelled from the claim's wording: `grossPnl = (amount / buyPrice) *
exitPrice − amount`, minus a fee of `feeRate * grossPnl` deducted only
when `grossPnl > 0` and `applyFees` is true. -/
def specNetPnl (feeRate amountUsdc buyPrice exitPrice : ℚ)
    (applyFees : Bool) : ℚ :=
  let grossPnl := amountUsdc / buyPrice * exitPrice - amountUsdc
  grossPnl -
    (if applyFees = true ∧ 0 < grossPnl then feeRate * grossPnl else 0)

/-! ## Helper lemmas -/

theorem record_pnl_halted_mono (l : RiskManager) (d : ℚ)
    (h : l.halted = true) : (l.record_pnl d).halted = true := by
  unfold RiskManager.record_pnl
  split
  · rfl
  · exact h

theorem record_pnl_sessionPnl (l : RiskManager) (d : ℚ) :
    (l.record_pnl d).sessionPnl = l.sessionPnl + d := by
  unfold RiskManager.record_pnl
  split <;> rfl

theorem record_pnl_cfg (l : RiskManager) (d : ℚ) :
    (l.record_pnl d).cfg = l.cfg := by
  unfold RiskManager.record_pnl
  split <;> rfl

theorem sessionLossReason_ne_empty (pnl : ℚ) : sessionLossReason pnl ≠ "" := by
  unfold RiskManager.sessionLossReason
  intro h
  have hlen := congrArg String.length h
  rw [String.length_append] at hlen
  have h1 : ("Session loss limit hit: $").length = 25 := rfl
  have h2 : ("" : String).length = 0 := rfl
  rw [h1, h2] at hlen
  omega

theorem close_position_halted (l : RiskManager) (tokenId : String) :
    (l.close_position tokenId).halted = l.halted := rfl

theorem applyOp_halted_mono (l : RiskManager) (op : SessionOp)
    (hop : op ≠ SessionOp.resumeOp) (h : l.halted = true) :
    (applyOp l op).halted = true := by
  cases op with
  | tradeOp now tokenId game team matchId amountUsdc buyPrice conditionId =>
    exact h
  | pnlOp realizedPnl => exact record_pnl_halted_mono _ _ h
  | closeOp tokenId => exact h
  | closePnlOp tokenId exitPrice applyFees =>
    show ((l.close_position_with_pnl tokenId exitPrice
      applyFees).1).halted = true
    unfold RiskManager.close_position_with_pnl
    cases hfind : l.positions.find? (fun p => p.tokenId == tokenId) with
    | none => simpa using h
    | some pos =>
      simp only [hfind]
      exact record_pnl_halted_mono _ _ h
  | haltOp reason => rfl
  | resumeOp => exact absurd rfl hop

theorem applyOps_halted_mono (ops : List SessionOp) (l : RiskManager)
    (hops : SessionOp.resumeOp ∉ ops) (h : l.halted = true) :
    (applyOps l ops).halted = true := by
  induction ops generalizing l with
  | nil => exact h
  | cons op rest ih =>
    have h1 : op ≠ SessionOp.resumeOp := fun he => hops (he ▸ List.mem_cons_self _ _)
    have h2 : SessionOp.resumeOp ∉ rest := fun hm => hops (List.mem_cons_of_mem _ hm)
    exact ih _ h2 (applyOp_halted_mono l op h1 h)

theorem pre_trade_check_of_halted (l : RiskManager) (now : ℚ)
    (tokenId game team matchId : String) (amountUsdc askPrice : ℚ)
    (h : l.halted = true) :
    (l.pre_trade_check now tokenId game team matchId amountUsdc
        askPrice).2 = .veto (.haltedV l.haltReason) := by
  unfold RiskManager.pre_trade_check
  simp [h]

/-! ## C10 — `pre_trade_check` is read-only -/

/-- C10: for every ledger state and every argument tuple,
`pre_trade_check` leaves the entire ledger state unchanged — open
positions, dedup keys, cooldown timestamps, session PnL, halted flag and
reason — whether it returns Clear or Veto. -/
theorem pre_trade_check_readonly (l : RiskManager) (now : ℚ)
    (tokenId game team matchId : String) (amountUsdc askPrice : ℚ) :
    (l.pre_trade_check now tokenId game team matchId amountUsdc
        askPrice).1 = l := by
  unfold RiskManager.pre_trade_check
  repeat' split
  all_goals rfl

/-! ## C1 — halt monotonicity -/

/-- C1: once the cumulative session PnL becomes `≤ −maxSessionLoss` via
`record_pnl`, the ledger is halted with a recorded (nonempty) reason, and
after any further sequence of mutating session operations that does not
include an explicit `resume`, the ledger is still halted and every
`pre_trade_check` call returns a Veto. -/
theorem halt_monotonicity (l : RiskManager) (delta : ℚ)
    (h : (l.record_pnl delta).sessionPnl ≤ -l.cfg.maxSessionLossUsdc) :
    (l.record_pnl delta).halted = true ∧
    (l.record_pnl delta).haltReason ≠ "" ∧
    ∀ ops : List SessionOp, SessionOp.resumeOp ∉ ops →
      ∀ now : ℚ, ∀ tokenId game team matchId : String,
        ∀ amountUsdc askPrice : ℚ,
        (applyOps (l.record_pnl delta) ops).halted = true ∧
        ((applyOps (l.record_pnl delta) ops).pre_trade_check now tokenId
            game team matchId amountUsdc askPrice).2.isVeto = true := by
  rw [record_pnl_sessionPnl] at h
  have hhalt : (l.record_pnl delta).halted = true := by
    unfold RiskManager.record_pnl
    rw [if_pos (by simpa using h)]
    rfl
  have hreason : (l.record_pnl delta).haltReason ≠ "" := by
    unfold RiskManager.record_pnl
    rw [if_pos (by simpa using h)]
    exact sessionLossReason_ne_empty _
  refine ⟨hhalt, hreason, fun ops hops now tokenId game team matchId
    amountUsdc askPrice => ?_⟩
  have hh : (applyOps (l.record_pnl delta) ops).halted = true :=
    applyOps_halted_mono ops _ hops hhalt
  refine ⟨hh, ?_⟩
  rw [pre_trade_check_of_halted _ _ _ _ _ _ _ _ hh]
  rfl

/-- Witness for C1 at a concrete input: default config
(`maxSessionLoss = 200`), a single `record_pnl` of `−250`, followed by a
further `record_pnl` of `+5`; the ledger stays halted and a
`pre_trade_check` is vetoed. -/
theorem halt_monotonicity_witness :
    ((({} : RiskManager).record_pnl (-250)).sessionPnl ≤
      -((({} : RiskManager).cfg.maxSessionLossUsdc)) ∧
    (applyOps (({} : RiskManager).record_pnl (-250))
        [SessionOp.pnlOp 5]).halted = true ∧
    ((applyOps (({} : RiskManager).record_pnl (-250))
        [SessionOp.pnlOp 5]).pre_trade_check 0 "t" "g" "tm" "m" 50
        (1/2)).2.isVeto = true) := by
  have h : (({} : RiskManager).record_pnl (-250)).sessionPnl ≤
      -((({} : RiskManager).cfg.maxSessionLossUsdc)) := by
    rw [record_pnl_sessionPnl]
    norm_num
  have key := halt_monotonicity {} (-250) h
  exact ⟨h, key.2.2 [SessionOp.pnlOp 5] (by decide) 0 "t" "g" "tm" "m" 50
    (1/2)⟩

/-! ## C2 — fixed check order with short-circuit -/

theorem check_dedup_isSome (l : RiskManager) (now : ℚ)
    (tokenId matchId team : String) :
    (check_dedup l now tokenId matchId team).isSome =
      specDedupFails l now tokenId matchId team := by
  unfold RiskManager.check_dedup specDedupFails
  cases h1 : l.positions.any (fun p => p.tokenId == tokenId) with
  | true => simp
  | false =>
    cases h2 : l.positions.any (fun p => p.matchId == matchId) with
    | true => simp
    | false =>
      cases h3 : getAssoc l.tradeKeys (dedup_key tokenId matchId team) with
      | none => simp
      | some lastTrade =>
        by_cases h4 : now - lastTrade < l.cfg.dedupWindowSeconds
        · simp [h4]
        · simp [h4]

theorem check_cooldown_isSome (l : RiskManager) (now : ℚ)
    (matchId : String) :
    (check_cooldown l now matchId).isSome =
      specCooldownFails l now matchId := by
  unfold RiskManager.check_cooldown specCooldownFails
  by_cases h1 : matchId = ""
  · simp [h1]
  · cases h2 : getAssoc l.matchCooldowns matchId with
    | none => simp [h1]
    | some lastTrade =>
      by_cases h3 : now - lastTrade < l.cfg.matchCooldownSeconds
      · simp [h1, h3]
      · simp [h1, h3]

theorem check_position_limits_eq (l : RiskManager) (game : String) :
    check_position_limits l game =
      (if specPositionTotalFails l then some VetoReason.maxPositions
       else if specPositionGroupFails l game then
         some (VetoReason.maxPerGame game)
       else none) := by
  unfold RiskManager.check_position_limits specPositionTotalFails
    specPositionGroupFails
  simp

theorem check_exposure_eq (l : RiskManager) (amountUsdc : ℚ) :
    check_exposure l amountUsdc =
      (if specExposureFails l amountUsdc then some VetoReason.exposure
       else none) := by
  unfold RiskManager.check_exposure specExposureFails
  simp

theorem check_session_loss_eq (l : RiskManager) :
    check_session_loss l =
      (if specSessionLossFails l then some VetoReason.sessionLoss
       else none) := by
  unfold RiskManager.check_session_loss specSessionLossFails
  simp

theorem check_dedup_name (l : RiskManager) (now : ℚ)
    (tokenId matchId team : String) (r : VetoReason)
    (h : check_dedup l now tokenId matchId team = some r) :
    checkNameOf (.veto r) = some .dedupCheck := by
  unfold RiskManager.check_dedup at h
  split at h
  · cases h; rfl
  · split at h
    · cases h; rfl
    · split at h
      · exact absurd h (by simp)
      · split at h
        · cases h; rfl
        · exact absurd h (by simp)

theorem check_cooldown_name (l : RiskManager) (now : ℚ) (matchId : String)
    (r : VetoReason) (h : check_cooldown l now matchId = some r) :
    checkNameOf (.veto r) = some .cooldownCheck := by
  unfold RiskManager.check_cooldown at h
  split at h
  · exact absurd h (by simp)
  · split at h
    · exact absurd h (by simp)
    · split at h
      · cases h; rfl
      · exact absurd h (by simp)

/-- C2: `pre_trade_check` runs its checks in the fixed spec order — halt,
dedup, cooldown, position total, position per-group, exposure, session
loss — and returns the Veto of the first failing check (short-circuit),
or Clear when none fails. -/
theorem pre_trade_check_first_failing (l : RiskManager) (now : ℚ)
    (tokenId game team matchId : String) (amountUsdc askPrice : ℚ) :
    checkNameOf (l.pre_trade_check now tokenId game team matchId
        amountUsdc askPrice).2 =
      specFirstFailing l now tokenId game team matchId amountUsdc := by
  unfold RiskManager.pre_trade_check specFirstFailing
  by_cases hh : l.halted
  · simp [hh, checkNameOf]
  · simp only [hh, if_false, Bool.false_eq_true]
    cases hd : check_dedup l now tokenId matchId team with
    | some r =>
      have hfail : specDedupFails l now tokenId matchId team = true := by
        rw [← check_dedup_isSome, hd]; rfl
      simp [hd, hfail, check_dedup_name l now tokenId matchId team r hd]
    | none =>
      have hpass : specDedupFails l now tokenId matchId team = false := by
        rw [← check_dedup_isSome, hd]; rfl
      simp only [hd, hpass, if_false, Bool.false_eq_true]
      cases hc : check_cooldown l now matchId with
      | some r =>
        have hfail : specCooldownFails l now matchId = true := by
          rw [← check_cooldown_isSome, hc]; rfl
        simp [hc, hfail, check_cooldown_name l now matchId r hc]
      | none =>
        have hpass2 : specCooldownFails l now matchId = false := by
          rw [← check_cooldown_isSome, hc]; rfl
        simp only [hc, hpass2, if_false, Bool.false_eq_true]
        rw [check_position_limits_eq]
        by_cases hpt : specPositionTotalFails l
        · simp [hpt, checkNameOf]
        · simp only [hpt, if_false, Bool.false_eq_true]
          by_cases hpg : specPositionGroupFails l game
          · simp [hpg, checkNameOf]
          · simp only [hpg, if_false, Bool.false_eq_true]
            rw [check_exposure_eq]
            by_cases hex : specExposureFails l amountUsdc
            · simp [hex, checkNameOf]
            · simp only [hex, if_false, Bool.false_eq_true]
              rw [check_session_loss_eq]
              by_cases hsl : specSessionLossFails l
              · simp [hsl, checkNameOf]
              · simp [hsl, checkNameOf]

/-! ## C3 — atomicity on order failure -/

/-- C3: when every gate up to order placement passes and the
`market_buy` call raises, `_handle_opportunity` leaves the ledger exactly
as it was (no position, no dedup key, no cooldown stamp), invokes the
scanner reject hook, and raises an alert; in particular an identical later
signal sees the same ledger state as before the failed attempt. -/
theorem order_failure_atomicity (settings : TradingSettings)
    (sizerCfg : SizingConfig) (bestAsk : Except String (Option ℚ))
    (balance : ℚ) (l : RiskManager) (now : ℚ) (opp : Opportunity)
    (e : String) (ask : ℚ) (slots : ℤ) (amount : ℚ)
    (hask : bestAsk = .ok (some ask))
    (hrisk : l.halted = false)
    (hmin : ¬ ask < settings.minBuyPrice)
    (hmax : ¬ ask > settings.maxBuyPrice)
    (hslots : slots = (l.cfg.maxOpenPositions : ℤ) - (l.open_positions : ℤ))
    (hpos : ¬ slots ≤ 0)
    (hbal : ¬ balance < 5)
    (hamount : amount = max 5 (pyRound2 (balance / (slots : ℚ))))
    (hclear : (l.pre_trade_check now opp.tokenId "market" opp.outcome
        opp.conditionId amount ask).2 = .clear) :
    handle_opportunity settings sizerCfg false bestAsk balance
        (.error e) l now opp =
      ⟨l, .orderFailed e, true, true, some amount⟩ := by
  subst hask hslots hamount
  simp only [handle_opportunity, hrisk, hmin, hmax, hpos, hbal, hclear,
    if_false, Bool.false_eq_true, ite_false]

/-- Witness for C3 at a concrete input: fresh default ledger, ask 0.5
inside the band, balance 100, a failing buy; the handler returns the
untouched ledger with reject and alert flags set. -/
theorem order_failure_atomicity_witness :
    handle_opportunity { minBuyPrice := 1/100, maxBuyPrice := 99/100 } {}
        false (.ok (some (1/2))) 100 (.error "boom") {} 0
        { tokenId := "t", conditionId := "c", outcome := "yes",
          question := "q" } =
      ⟨{}, .orderFailed "boom", true, true, some 10⟩ := by
  have h10 : (10 : ℚ) = max 5 (pyRound2 (100 / ((10 : ℤ) : ℚ))) := by
    norm_num [pyRound2, roundHalfEven]
  have key := order_failure_atomicity
    { minBuyPrice := 1/100, maxBuyPrice := 99/100 } {}
    (.ok (some (1/2))) 100 {} 0
    { tokenId := "t", conditionId := "c", outcome := "yes",
      question := "q" }
    "boom" (1/2) 10 10 rfl rfl (by norm_num) (by norm_num) (by decide)
    (by decide) (by norm_num) h10
    (by
      norm_num [RiskManager.pre_trade_check, RiskManager.check_dedup,
        RiskManager.check_cooldown, RiskManager.check_position_limits,
        RiskManager.check_exposure, RiskManager.check_session_loss,
        RiskManager.total_exposure, RiskManager.open_positions, getAssoc])
  exact key

/-! ## C9 — actual engine order sizing -/

/-- C9: once a signal passes the pre-lock gates, the engine discards it
before any risk check when no position slots are free or the balance is
under $5 (ledger untouched, scanner reject hook invoked), otherwise it
sizes the order as `max 5 (round2 (balance / availableSlots))`; and the
configured `OrderSizer` is never consulted — the handler's result does not
depend on it. -/
theorem engine_sizing (settings : TradingSettings)
    (sizerCfg : SizingConfig) (bestAsk : Except String (Option ℚ))
    (balance : ℚ) (buyResult : Except String Unit) (l : RiskManager)
    (now : ℚ) (opp : Opportunity) (ask : ℚ) (slots : ℤ)
    (hask : bestAsk = .ok (some ask))
    (hrisk : l.halted = false)
    (hmin : ¬ ask < settings.minBuyPrice)
    (hmax : ¬ ask > settings.maxBuyPrice)
    (hslots : slots = (l.cfg.maxOpenPositions : ℤ) -
      (l.open_positions : ℤ)) :
    (slots ≤ 0 →
      handle_opportunity settings sizerCfg false bestAsk balance buyResult
        l now opp = ⟨l, .noSlots, true, false, none⟩) ∧
    (¬ slots ≤ 0 → balance < 5 →
      handle_opportunity settings sizerCfg false bestAsk balance buyResult
        l now opp = ⟨l, .lowBalance, true, false, none⟩) ∧
    (¬ slots ≤ 0 → ¬ balance < 5 →
      (handle_opportunity settings sizerCfg false bestAsk balance buyResult
        l now opp).amount = some (max 5 (pyRound2 (balance /
          (slots : ℚ))))) ∧
    (∀ otherSizer : SizingConfig,
      handle_opportunity settings otherSizer false bestAsk balance
        buyResult l now opp =
      handle_opportunity settings sizerCfg false bestAsk balance buyResult
        l now opp) := by
  subst hask hslots
  refine ⟨fun hle => ?_, fun hgt hbal => ?_, fun hgt hbal => ?_,
    fun otherSizer => rfl⟩
  · simp only [handle_opportunity, hrisk, hmin, hmax, hle, if_true,
      if_false, Bool.false_eq_true, ite_false]
  · simp only [handle_opportunity, hrisk, hmin, hmax, hgt, hbal, if_true,
      if_false, Bool.false_eq_true, ite_false]
  · simp only [handle_opportunity, hrisk, hmin, hmax, hgt, hbal, if_false,
      Bool.false_eq_true, ite_false]
    cases hd : (l.pre_trade_check now opp.tokenId "market" opp.outcome
        opp.conditionId (max 5 (pyRound2 (balance /
          (((l.cfg.maxOpenPositions : ℤ) - (l.open_positions : ℤ) :
            ℤ) : ℚ)))) ask).2 with
    | clear =>
      cases buyResult with
      | error e => rfl
      | ok u => rfl
    | veto r => rfl

/-- Witness for C9 at a concrete input: default ledger (10 slots free),
balance 100 — the computed bet is `max 5 (round2 (100/10)) = 10`. -/
theorem engine_sizing_witness :
    (handle_opportunity { minBuyPrice := 1/100, maxBuyPrice := 99/100 } {}
        false (.ok (some (1/2))) 100 (.ok ()) {} 0
        { tokenId := "t", conditionId := "c", outcome := "yes",
          question := "q" }).amount = some 10 := by
  have key := (engine_sizing { minBuyPrice := 1/100, maxBuyPrice := 99/100 }
    {} (.ok (some (1/2))) 100 (.ok ()) {} 0
    { tokenId := "t", conditionId := "c", outcome := "yes",
      question := "q" } (1/2) 10 rfl rfl (by norm_num) (by norm_num)
    (by decide)).2.2.1 (by decide) (by norm_num)
  rw [key]
  norm_num [pyRound2, roundHalfEven]

/-! ## C5 — postcondition of `close_position_with_pnl` -/

/-- C5: with a nonnegative fee rate, closing an existing position returns
exactly the spec's net PnL (fee deducted only from positive gross PnL and
only when `applyFees`), removes that position, and at `exitPrice = 0`
returns exactly `−amount` whatever the fee rate; when no position matches
the token id, the call returns `none` and leaves the ledger unchanged. -/
theorem close_position_with_pnl_spec (l : RiskManager) (tokenId : String)
    (exitPrice : ℚ) (applyFees : Bool) (hfee : 0 ≤ l.cfg.feeRate) :
    (l.positions.find? (fun p => p.tokenId == tokenId) = none →
      l.close_position_with_pnl tokenId exitPrice applyFees = (l, none)) ∧
    (∀ pos, l.positions.find? (fun p => p.tokenId == tokenId) = some pos →
      (l.close_position_with_pnl tokenId exitPrice applyFees).2 =
        some (specNetPnl l.cfg.feeRate pos.amountUsdc pos.buyPrice
          exitPrice applyFees) ∧
      (l.close_position_with_pnl tokenId exitPrice applyFees).1.positions =
        l.positions.filter (fun p => p.tokenId ≠ tokenId) ∧
      (exitPrice = 0 → 0 < pos.amountUsdc →
        (l.close_position_with_pnl tokenId exitPrice applyFees).2 =
          some (-pos.amountUsdc))) := by
  constructor
  · intro hnone
    unfold RiskManager.close_position_with_pnl
    rw [hnone]
  · intro pos hfind
    have hfees : (if applyFees = true ∧
          0 < pos.amountUsdc / pos.buyPrice * exitPrice - pos.amountUsdc ∧
          0 < l.cfg.feeRate then
        (pos.amountUsdc / pos.buyPrice * exitPrice - pos.amountUsdc) *
          l.cfg.feeRate
      else 0) =
        (if applyFees = true ∧
            0 < pos.amountUsdc / pos.buyPrice * exitPrice -
              pos.amountUsdc then
          l.cfg.feeRate *
            (pos.amountUsdc / pos.buyPrice * exitPrice - pos.amountUsdc)
        else 0) := by
      rcases lt_or_eq_of_le hfee with hf | hf
      · by_cases h1 : applyFees = true
        · by_cases h2 : 0 < pos.amountUsdc / pos.buyPrice * exitPrice -
              pos.amountUsdc
          · rw [if_pos ⟨h1, h2, hf⟩, if_pos ⟨h1, h2⟩, mul_comm]
          · rw [if_neg (by tauto), if_neg (by tauto)]
        · rw [if_neg (by tauto), if_neg (by tauto)]
      · rw [← hf]
        by_cases h2 : applyFees = true ∧
            0 < pos.amountUsdc / pos.buyPrice * exitPrice - pos.amountUsdc
        · rw [if_neg (by simp), if_pos h2, zero_mul]
        · rw [if_neg (by tauto), if_neg h2]
    have hval : (l.close_position_with_pnl tokenId exitPrice applyFees).2 =
        some (specNetPnl l.cfg.feeRate pos.amountUsdc pos.buyPrice
          exitPrice applyFees) := by
      unfold RiskManager.close_position_with_pnl specNetPnl
      rw [hfind]
      simp only [hfees]
    refine ⟨hval, ?_, ?_⟩
    · unfold RiskManager.close_position_with_pnl
      rw [hfind]
      simp only []
      show (RiskManager.record_pnl (l.close_position tokenId) _).positions
        = _
      have : ∀ (m : RiskManager) (d : ℚ),
          (m.record_pnl d).positions = m.positions := by
        intro m d
        unfold RiskManager.record_pnl
        split <;> rfl
      rw [this]
      rfl
    · intro hexit hamt
      rw [hval, hexit]
      unfold specNetPnl
      simp only [mul_zero, zero_sub]
      rw [if_neg (by
        rintro ⟨-, habs⟩
        exact absurd (neg_pos.mp habs) (not_lt.mpr hamt.le))]
      rw [sub_zero]

/-- Witness for C5: buy $50 at price 0.60 with `feeRate = 0.02`; resolving
at 0 returns exactly −50 and removes the position. -/
theorem close_position_with_pnl_witness :
    (RiskManager.close_position_with_pnl
      { cfg := { feeRate := 1/50 },
        positions := [{ tokenId := "t", game := "g", team := "tm",
                        matchId := "m", amountUsdc := 50,
                        buyPrice := 3/5 }] }
      "t" 0 true).2 = some (-(50 : ℚ)) := by
  have key := (close_position_with_pnl_spec
    { cfg := { feeRate := 1/50 },
      positions := [{ tokenId := "t", game := "g", team := "tm",
                      matchId := "m", amountUsdc := 50,
                      buyPrice := 3/5 }] }
    "t" 0 true (by norm_num)).2
    { tokenId := "t", game := "g", team := "tm", matchId := "m",
      amountUsdc := 50, buyPrice := 3/5 } rfl
  exact key.2.2 rfl (by norm_num)

/-! ## C6 — snapshot round-trip -/

/-- C6: loading a saved snapshot into any ledger reproduces the saved
ledger — same open positions, session PnL, dedup-key and cooldown maps —
except that a persisted halt whose reason mentions the circuit breaker is
discarded (halted becomes false, reason cleared); every other halt flag
and reason round-trips unchanged. -/
theorem snapshot_round_trip (l m : RiskManager) (now : ℚ) :
    (RiskManager.load_state_dict m (l.to_state_dict now)).positions =
      l.positions ∧
    (RiskManager.load_state_dict m (l.to_state_dict now)).sessionPnl =
      l.sessionPnl ∧
    (RiskManager.load_state_dict m (l.to_state_dict now)).tradeKeys =
      l.tradeKeys ∧
    (RiskManager.load_state_dict m (l.to_state_dict now)).matchCooldowns =
      l.matchCooldowns ∧
    (RiskManager.load_state_dict m (l.to_state_dict now)).halted =
      (if l.halted && RiskManager.isCircuitBreakerReason l.haltReason
       then false else l.halted) ∧
    (RiskManager.load_state_dict m (l.to_state_dict now)).haltReason =
      (if l.halted && RiskManager.isCircuitBreakerReason l.haltReason
       then "" else l.haltReason) := by
  unfold RiskManager.load_state_dict RiskManager.to_state_dict
  cases hb : l.halted && RiskManager.isCircuitBreakerReason l.haltReason
    with
  | true => simp
  | false => simp

/-! ## C7 — stop-loss behaviour -/

/-- C7: with a configured stop-loss fraction and the price strictly below
`buyPrice * (1 − stopLossFraction)`, `_should_stop_loss` fires; the
stop-loss execution sells exactly `amount / buyPrice` shares, and on a
successful sell closes the position through `close_position_with_pnl`
with `applyFees = false`; if the sell raises, the ledger is untouched
(position stays open, no PnL) and only an alert is raised. -/
theorem stop_loss_behaviour (l : RiskManager) (pos : PositionRecord)
    (price : ℚ) (hsl : 0 < l.cfg.stopLossPct)
    (htrig : price < pos.buyPrice * (1 - l.cfg.stopLossPct)) :
    should_stop_loss l pos price = true ∧
    (∀ e : String, execute_stop_loss l pos price (.error e) =
      ⟨l, none, pos.amountUsdc / pos.buyPrice, true⟩) ∧
    execute_stop_loss l pos price (.ok ()) =
      ⟨(l.close_position_with_pnl pos.tokenId price false).1,
       (l.close_position_with_pnl pos.tokenId price false).2,
       pos.amountUsdc / pos.buyPrice, false⟩ := by
  refine ⟨?_, fun e => rfl, ?_⟩
  · unfold should_stop_loss
    rw [if_neg (not_le.mpr hsl)]
    exact decide_eq_true htrig
  · unfold execute_stop_loss
    rfl

/-- Witness for C7, the spec's scenario 4: `stopLossFraction = 0.5`, buy
$50 at 0.60, monitored price 0.25 (below the 0.30 trigger): the stop-loss
fires, `50/0.60` shares are sold, the position closes with no fee and a
net PnL of `−175/6 ≈ −29.17`. -/
theorem stop_loss_behaviour_witness :
    should_stop_loss
      { cfg := { stopLossPct := 1/2 },
        positions := [{ tokenId := "t", game := "g", team := "tm",
                        matchId := "m", amountUsdc := 50,
                        buyPrice := 3/5 }] }
      { tokenId := "t", game := "g", team := "tm", matchId := "m",
        amountUsdc := 50, buyPrice := 3/5 } (1/4) = true ∧
    (execute_stop_loss
      { cfg := { stopLossPct := 1/2 },
        positions := [{ tokenId := "t", game := "g", team := "tm",
                        matchId := "m", amountUsdc := 50,
                        buyPrice := 3/5 }] }
      { tokenId := "t", game := "g", team := "tm", matchId := "m",
        amountUsdc := 50, buyPrice := 3/5 } (1/4) (.ok ())).pnl =
      some (-175/6) := by
  have key := stop_loss_behaviour
    { cfg := { stopLossPct := 1/2 },
      positions := [{ tokenId := "t", game := "g", team := "tm",
                      matchId := "m", amountUsdc := 50,
                      buyPrice := 3/5 }] }
    { tokenId := "t", game := "g", team := "tm", matchId := "m",
      amountUsdc := 50, buyPrice := 3/5 } (1/4)
    (by norm_num) (by norm_num)
  refine ⟨key.1, ?_⟩
  rw [key.2.2]
  norm_num [RiskManager.close_position_with_pnl,
    RiskManager.close_position, RiskManager.record_pnl]

/-! ## C4 — circuit-breaker recovery (corrected)

The spec reads `record_success` as a two-step recovery
(`Open → HalfOpen`, then a second call `HalfOpen → Closed`).  The code's
two state tests are sequential `if`s, not `elif`: the second test sees the
state written by the first, so a single `record_success` takes an `OPEN`
adapter through `HALF_OPEN` to `CLOSED`.  The repository's own test
(`test_success_recovers_from_open` in
`src/tests/test_circuit_breaker.py`) asserts exactly this single-call
behaviour, so the code is intentional and the spec sentence is the
inaccuracy. -/

theorem getAssoc_setAssoc {α : Type} (m : List (String × α)) (k : String)
    (v : α) : getAssoc (setAssoc m k v) k = some v := by
  induction m with
  | nil => simp [setAssoc, getAssoc]
  | cons kv rest ih =>
    by_cases h : kv.1 = k
    · simp [setAssoc, h, getAssoc]
    · obtain ⟨k', v'⟩ := kv
      simp only at h
      simp [setAssoc, h, getAssoc, List.find?]
      simpa [getAssoc] using ih

theorem evaluate_global_state_adapters (cb : CircuitBreaker) :
    (CircuitBreaker.evaluate_global_state cb).adapters = cb.adapters := by
  simp only [CircuitBreaker.evaluate_global_state]
  split
  · rfl
  · split <;> rfl

/-- Counterexample to C4 as stated: a registered source that is `Open`
(one failure at `failure_threshold = 1`) is `Closed` after a single
`record_success` call — it is not left `HalfOpen`. -/
theorem record_success_single_call_closes :
    CircuitBreaker.adapterState
      (CircuitBreaker.record_failure
        (CircuitBreaker.register { cfg := { failureThreshold := 1 } } 0
          "A") 1 "A") "A" = some AdapterState.opened ∧
    CircuitBreaker.adapterState
      (CircuitBreaker.record_success
        (CircuitBreaker.record_failure
          (CircuitBreaker.register { cfg := { failureThreshold := 1 } } 0
            "A") 1 "A") 2 "A") "A" = some AdapterState.closed := by
  constructor
  · simp +decide [CircuitBreaker.adapterState,
      CircuitBreaker.record_failure, CircuitBreaker.register,
      CircuitBreaker.evaluate_global_state, CircuitBreaker.healthy_count,
      getAssoc, setAssoc]
  · simp +decide [CircuitBreaker.adapterState,
      CircuitBreaker.record_success, CircuitBreaker.record_failure,
      CircuitBreaker.register, CircuitBreaker.evaluate_global_state,
      CircuitBreaker.healthy_count, getAssoc, setAssoc]

/-- C4 amended: for every registered source in state `Open` (or
`HalfOpen`), a single `record_success` call already moves it to `Closed`
with the consecutive-failure counter reset — it passes through `HalfOpen`
within the same call, so no second call is needed. -/
theorem record_success_recovery (cb : CircuitBreaker) (now : ℚ)
    (name : String) (h : AdapterHealth)
    (hget : getAssoc cb.adapters name = some h)
    (hstate : h.state = AdapterState.opened ∨
      h.state = AdapterState.halfOpen) :
    CircuitBreaker.adapterState (CircuitBreaker.record_success cb now name)
      name = some AdapterState.closed ∧
    (getAssoc (CircuitBreaker.record_success cb now name).adapters
      name).map (·.consecutiveFailures) = some 0 := by
  unfold CircuitBreaker.record_success
  rw [hget]
  dsimp only
  rcases hstate with hs | hs
  all_goals rw [hs]
  all_goals simp [CircuitBreaker.adapterState,
    evaluate_global_state_adapters, getAssoc_setAssoc]

/-- Witness for the amended C4 at a concrete input: an adapter held in
`Open` recovers to `Closed` with zero consecutive failures on one
`record_success`. -/
theorem record_success_recovery_witness :
    CircuitBreaker.adapterState
      (CircuitBreaker.record_success
        { adapters := [("A", { name := "A",
                               state := AdapterState.opened,
                               consecutiveFailures := 3 })] }
        7 "A") "A" = some AdapterState.closed := by
  have key := record_success_recovery
    { adapters := [("A", { name := "A",
                           state := AdapterState.opened,
                           consecutiveFailures := 3 })] }
    7 "A"
    { name := "A", state := AdapterState.opened, consecutiveFailures := 3 }
    (by simp [getAssoc, List.find?]) (Or.inl rfl)
  exact key.1

/-! ## C8 — sizing clamp (corrected)

`OrderSizer.compute` rounds to two decimals *after* clamping
(`return round(clamped, 2)` in `src/core/sizing.py`), so when `minOrder`
is not a whole number of cents the returned value can fall below
`minOrder` (and likewise rise above a non-cent `maxOrder`).  The claim as
stated — output always in `[minOrder, maxOrder]` whenever
`0 < minOrder ≤ maxOrder` — is therefore false; it holds once the bounds
are whole cents, which the amended theorem proves. -/

theorem roundHalfEven_ge (a : ℤ) (x : ℚ) (h : (a : ℚ) ≤ x) :
    a ≤ roundHalfEven x := by
  have hf : a ≤ ⌊x⌋ := Int.le_floor.mpr h
  unfold roundHalfEven
  split
  · exact hf
  · split
    · omega
    · split <;> omega

theorem roundHalfEven_le (b : ℤ) (x : ℚ) (h : x ≤ (b : ℚ)) :
    roundHalfEven x ≤ b := by
  have hf : ⌊x⌋ ≤ b := by
    have := Int.floor_le_floor h
    rwa [Int.floor_intCast] at this
  unfold roundHalfEven
  split
  · exact hf
  · rename_i h1
    split
    · rename_i h2
      have hne : ⌊x⌋ ≠ b := by
        intro he
        have hx : x - (⌊x⌋ : ℚ) ≤ 0 := by
          rw [he]
          linarith
        linarith
      omega
    · rename_i h2
      have hxf : x - (⌊x⌋ : ℚ) = 1/2 := le_antisymm (not_lt.mp h2)
        (not_lt.mp h1)
      have hlt : (⌊x⌋ : ℚ) < (b : ℚ) := by linarith
      have hib : ⌊x⌋ < b := by exact_mod_cast hlt
      split <;> omega

theorem pyRound2_bounds (lo hi x : ℚ) (a b : ℤ) (hlo : lo = a / 100)
    (hhi : hi = b / 100) (h1 : lo ≤ x) (h2 : x ≤ hi) :
    lo ≤ pyRound2 x ∧ pyRound2 x ≤ hi := by
  subst hlo hhi
  have ha : (a : ℚ) ≤ x * 100 := by linarith
  have hb : x * 100 ≤ (b : ℚ) := by linarith
  constructor
  · have := roundHalfEven_ge a (x * 100) ha
    unfold pyRound2
    have hcast : (a : ℚ) ≤ (roundHalfEven (x * 100) : ℚ) := by
      exact_mod_cast this
    linarith
  · have := roundHalfEven_le b (x * 100) hb
    unfold pyRound2
    have hcast : ((roundHalfEven (x * 100) : ℤ) : ℚ) ≤ (b : ℚ) := by
      exact_mod_cast this
    linarith

/-- Counterexample to C8 as stated: with `minOrder = 10.004`
(`2501/250`), `maxOrder = 20` and a fixed base size of 1, the raw size
clamps to `minOrder` and the final `round(·, 2)` brings it down to 10,
strictly below `minOrder` even though `0 < minOrder ≤ maxOrder`.  (The
fractional part of `minOrder · 100` is 0.4, safely below the rounding
tie, so Python's float `round` agrees with this rational value.) -/
theorem sizing_clamp_counterexample :
    (0 : ℚ) < (2501/250 : ℚ) ∧ (2501/250 : ℚ) ≤ 20 ∧
    OrderSizer.compute { mode := "fixed", baseSize := 1,
                         minOrder := 2501/250,
                         maxOrder := 20 } 100 (1/2) (17/20) = 10 ∧
    (10 : ℚ) < 2501/250 := by
  refine ⟨by norm_num, by norm_num, ?_, by norm_num⟩
  simp only [OrderSizer.compute, OrderSizer.rawSize, String.reduceEq,
    reduceIte]
  norm_num [pyRound2, roundHalfEven]

/-- C8 amended: for every sizing policy and every input, when
`0 < minOrder ≤ maxOrder` and both bounds are whole numbers of cents
(integer multiples of 0.01 — true of any USDC amount expressed in cents,
including the defaults 10 and 200), the computed size lies in
`[minOrder, maxOrder]`; in particular it is positive. -/
theorem sizing_clamp_cents (cfg : SizingConfig)
    (fuzzyScore askPrice maxBuyPrice : ℚ) (a b : ℤ)
    (hlo : cfg.minOrder = a / 100) (hhi : cfg.maxOrder = b / 100)
    (hpos : 0 < cfg.minOrder) (hle : cfg.minOrder ≤ cfg.maxOrder) :
    cfg.minOrder ≤ OrderSizer.compute cfg fuzzyScore askPrice maxBuyPrice ∧
    OrderSizer.compute cfg fuzzyScore askPrice maxBuyPrice ≤
      cfg.maxOrder ∧
    0 < OrderSizer.compute cfg fuzzyScore askPrice maxBuyPrice := by
  have key := pyRound2_bounds cfg.minOrder cfg.maxOrder
    (max cfg.minOrder
      (min (OrderSizer.rawSize cfg fuzzyScore askPrice maxBuyPrice)
        cfg.maxOrder))
    a b hlo hhi (le_max_left _ _) (max_le hle (min_le_right _ _))
  unfold OrderSizer.compute
  exact ⟨key.1, key.2, lt_of_lt_of_le hpos key.1⟩

/-- Witness for the amended C8 at a concrete input: default bounds
`[10, 200]` (`1000/100` and `20000/100` cents) with the kelly policy at
ask 0.5 give a size of 40, inside the bounds. -/
theorem sizing_clamp_cents_witness :
    (10 : ℚ) ≤ OrderSizer.compute { mode := "kelly" } 100 (1/2) (17/20) ∧
    OrderSizer.compute { mode := "kelly" } 100 (1/2) (17/20) ≤ 200 ∧
    (0 : ℚ) < OrderSizer.compute { mode := "kelly" } 100 (1/2) (17/20) :=
  sizing_clamp_cents { mode := "kelly" } 100 (1/2) (17/20) 1000 20000
    (by norm_num) (by norm_num) (by norm_num) (by norm_num)

end PolySniper
